import Mathlib

/-!
Verification development for the `pure-git-blame` extension
(`src/extension.ts`).  The TypeScript code is shallowly embedded:

* JavaScript strings are modelled as `List Char` (`Str`);
* `output.split('\n')` is `splitLines`;
* `line.startsWith(p)` is `(p.toList).isPrefixOf line`,
  `line.substring(n)` is `List.drop n`, `line.substring(0, 40)` is
  `List.take 40`, and the regex test `^[0-9a-f]{40}` is `isHash40`;
* `parseInt` is `jsParseInt` (leading whitespace, optional sign, `0x`
  hexadecimal or decimal digit prefix; `none` models `NaN`);
* `new Date(ms).toISOString().split('T')[0]` is `isoDateOfMs`, using the
  proleptic Gregorian calendar in UTC exactly as ECMAScript does; a time
  value outside `±8.64e15` milliseconds (or a `NaN` timestamp) makes
  `toISOString` throw, modelled by `Option`/`Except` errors;
* fallible JavaScript code (a thrown exception) is `Except Unit` /
  `Option`; the `forEach` loop of `parseBlameOutput` is the recursion
  `parseLines`, which stops at the first thrown exception;
* the provider's interactions with the editor host, the filesystem and
  the `git` subprocesses are recorded as an ordered `List Effect`, with
  the outside world summarised by an `Env` of response functions.
-/

abbrev Str : Type := List Char

/-- Lowercase-hex test for one character of the regex `[0-9a-f]`. -/
def isHexDigit (c : Char) : Bool :=
  c.isDigit || decide ('a' ≤ c ∧ c ≤ 'f')

/-- Test of `line.match(/^[0-9a-f]\x7b40\x7d/)` succeeding: at least 40 characters and the
first 40 are lowercase hexadecimal. -/
def isHash40 (l : Str) : Bool :=
  decide (40 ≤ l.length) && (l.take 40).all isHexDigit

/-- JavaScript `output.split('\n')`: `"" ↦ [""]`, a trailing newline yields a
trailing empty piece. -/
def splitLines : Str → List Str
  | [] => [[]]
  | c :: rest =>
    if c = '\n' then [] :: splitLines rest
    else
      match splitLines rest with
      | [] => [[c]]
      | l :: ls => (c :: l) :: ls

/-- The ASCII/Latin-1 whitespace characters `parseInt` skips (exotic Unicode
space categories are omitted; they never occur in blame output). -/
def isJsSpace (c : Char) : Bool :=
  c = ' ' || c = '\t' || c = '\n' || c = '\r' || c = '\x0b' || c = '\x0c' ||
  c = ' ' || c = '﻿'

/-- Hexadecimal digit of `parseInt`'s radix-16 mode (`[0-9a-fA-F]`). -/
def isJsHexDigit (c : Char) : Bool :=
  c.isDigit || decide ('a' ≤ c ∧ c ≤ 'f') || decide ('A' ≤ c ∧ c ≤ 'F')

def hexDigitVal (c : Char) : Nat :=
  if c.isDigit then c.toNat - 48
  else if decide ('a' ≤ c ∧ c ≤ 'f') then c.toNat - 97 + 10
  else if decide ('A' ≤ c ∧ c ≤ 'F') then c.toNat - 65 + 10
  else 0

def decValue (ds : Str) : Nat := ds.foldl (fun a c => a * 10 + (c.toNat - 48)) 0

def hexValue (ds : Str) : Nat := ds.foldl (fun a c => a * 16 + hexDigitVal c) 0

/-- JavaScript `parseInt(s)` (radix unspecified): skip leading whitespace, an
optional sign, then the longest `0x`-hexadecimal or decimal digit prefix;
`none` models the `NaN` result when no digit is found. -/
def jsParseInt (s : Str) : Option Int :=
  let s1 := s.dropWhile isJsSpace
  let sign : Int := match s1 with
    | '-' :: _ => -1
    | _ => 1
  let s2 : Str := match s1 with
    | '-' :: r => r
    | '+' :: r => r
    | _ => s1
  match s2 with
  | '0' :: x :: r =>
    if x = 'x' ∨ x = 'X' then
      let ds := r.takeWhile isJsHexDigit
      if ds = [] then none else some (sign * (hexValue ds : Int))
    else
      some (sign * (decValue (s2.takeWhile Char.isDigit) : Int))
  | _ =>
    let ds := s2.takeWhile Char.isDigit
    if ds = [] then none else some (sign * (decValue ds : Int))

/-- Civil (proleptic Gregorian, UTC) date of a day count relative to
1970-01-01, as ECMAScript's date functions compute it. -/
def civilFromDays (z0 : Int) : Int × Nat × Nat :=
  let z := z0 + 719468
  let era := Int.ediv z 146097
  let doe := (z - era * 146097).toNat
  let yoe := (doe - doe / 1460 + doe / 36524 - doe / 146096) / 365
  let doy := doe - (365 * yoe + yoe / 4 - yoe / 100)
  let mp := (5 * doy + 2) / 153
  let d := doy - (153 * mp + 2) / 5 + 1
  let m := if mp < 10 then mp + 3 else mp + 3 - 12
  let y : Int := (yoe : Int) + era * 400 + (if m ≤ 2 then 1 else 0)
  (y, m, d)

def natDigitsAux : Nat → Nat → Str
  | 0, _ => []
  | fuel + 1, n => if n = 0 then [] else natDigitsAux fuel (n / 10) ++ [Char.ofNat (48 + n % 10)]

/-- Decimal digits of a natural number. -/
def natDigits (n : Nat) : Str := if n = 0 then ['0'] else natDigitsAux n n

def padZero (w : Nat) (s : Str) : Str := List.replicate (w - s.length) '0' ++ s

/-- The date part of `new Date(ms).toISOString()`: `YYYY-MM-DD`, with the
expanded-year form (sign and six digits) outside years 0..9999. -/
def isoDateOfMs (ms : Int) : Str :=
  let c := civilFromDays (Int.ediv ms 86400000)
  let y := c.1
  let m := c.2.1
  let d := c.2.2
  let ystr :=
    if 0 ≤ y ∧ y ≤ 9999 then padZero 4 (natDigits y.toNat)
    else (if y < 0 then ['-'] else ['+']) ++ padZero 6 (natDigits y.natAbs)
  ystr ++ ['-'] ++ padZero 2 (natDigits m) ++ ['-'] ++ padZero 2 (natDigits d)

/-- Model of `new Date(parseInt(rest) * 1000).toISOString().split('T')[0]`: `none`
models the `RangeError` thrown by `toISOString` when the timestamp is `NaN`
or the time value exceeds `±8.64e15` ms. -/
def authorTimeToDate (rest : Str) : Option Str :=
  match jsParseInt rest with
  | none => none
  | some t =>
    let ms := t * 1000
    if ms.natAbs ≤ 8640000000000000 then some (isoDateOfMs ms) else none

/-- The `BlameInfo` record of the source; the code pushes `Partial<BlameInfo>` values
cast with `as BlameInfo`, so every string field may really be `undefined`,
modelled by `Option`. -/
structure BlameInfo where
  hash : Option Str
  author : Option Str
  date : Option Str
  message : Option Str
  lineNumber : Nat
deriving DecidableEq

/-- The `currentBlame : Partial<BlameInfo>` accumulator. -/
structure PartialBlame where
  hash : Option Str := none
  author : Option Str := none
  date : Option Str := none
  message : Option Str := none
deriving DecidableEq

/-- Loop state of `parseBlameOutput`: the `blame` array, the accumulator and
the `lineNumber` counter. -/
structure ParseState where
  blame : List BlameInfo
  currentBlame : PartialBlame
  lineNumber : Nat

/-- The body of the `lines.forEach` callback.  The `author-time` branch
throws (`Except.error`) when the date conversion does. -/
def parseStep (st : ParseState) (line : Str) : Except Unit ParseState :=
  if ("author ".toList).isPrefixOf line then
    .ok { st with currentBlame := { st.currentBlame with author := some (line.drop 7) } }
  else if ("author-time ".toList).isPrefixOf line then
    match authorTimeToDate (line.drop 12) with
    | some d => .ok { st with currentBlame := { st.currentBlame with date := some d } }
    | none => .error ()
  else if ("summary ".toList).isPrefixOf line then
    .ok { st with currentBlame := { st.currentBlame with message := some (line.drop 8) } }
  else if isHash40 line then
    .ok { blame := st.blame ++ [{ hash := some (line.take 40),
                                  author := st.currentBlame.author,
                                  date := st.currentBlame.date,
                                  message := st.currentBlame.message,
                                  lineNumber := st.lineNumber + 1 }],
          currentBlame := {},
          lineNumber := st.lineNumber + 1 }
  else .ok st

/-- The `forEach` loop: a thrown exception aborts the whole traversal. -/
def parseLines : List Str → ParseState → Except Unit (List BlameInfo)
  | [], st => .ok st.blame
  | l :: ls, st =>
    match parseStep st l with
    | .error e => .error e
    | .ok st' => parseLines ls st'

/-- The `parseBlameOutput` function of the source. -/
def parseBlameOutput (output : Str) : Except Unit (List BlameInfo) :=
  parseLines (splitLines output) { blame := [], currentBlame := {}, lineNumber := 0 }

/-- Whether `parseBlameOutput` completed without throwing. -/
def parseOk (s : Str) : Bool :=
  match parseBlameOutput s with
  | .ok _ => true
  | .error _ => false

/-- One rendered line annotation (`vscode.DecorationOptions`): the anchored
line index, the inline `after.contentText`, and the Markdown hover text. -/
structure Decoration where
  line : Nat
  contentText : Str
  hoverMessage : Str
deriving DecidableEq

/-- Observable actions of the provider, in program order: filesystem access,
`git` subprocess invocations, editor decoration calls, error popups and
status-bar updates. -/
inductive Effect where
  | clearDecorations
  | fsAccessCheck (p : Str)
  | execGitVersion
  | execRevParse (p : Str)
  | execBlame (p : Str)
  | showErrorMessage (msg : Str)
  | setDecorations (decos : List Decoration)
  | statusBarUpdate (text : Str) (tooltip : Str)
deriving DecidableEq

/-- The slice of `vscode.TextDocument` the provider reads. -/
structure Document where
  fsPath : Str
  scheme : Str
  isUntitled : Bool
  lineCount : Nat
deriving DecidableEq

/-- One selection range; VS Code keeps `startLine ≤ endLine`. -/
structure Selection where
  startLine : Nat
  endLine : Nat
deriving DecidableEq

structure Editor where
  document : Document
  selections : List Selection
deriving DecidableEq

/-- Responses of the outside world, indexed by the file path (the `cwd`
dirname handling is absorbed into the response functions):
`fileExists` is `fs.promises.access`; `gitVersionOk` is whether
`git --version` succeeds; `revParse` is `git rev-parse --git-dir`
(`none` = the command failed, `some out` = its stdout); `blame` is
`git blame --line-porcelain` (`.error msg` = rejection with that message). -/
structure Env where
  fileExists : Str → Bool
  gitVersionOk : Bool
  revParse : Str → Option Str
  blame : Str → Except Str Str

/-- Model of `isGitRepository`: try to run the root query and test `!!stdout`, with a failed run giving `false`. -/
def gitRepoCheck (r : Option Str) : Bool :=
  match r with
  | none => false
  | some out => decide (out ≠ [])

/-- Mutable fields of `GitBlameProvider`.  The `cache : Map<string,
BlameInfo[]>` is an association list with JS `Map` get/set semantics. -/
structure ProviderState where
  enabled : Bool
  cache : List (Str × List BlameInfo)
  statusText : Str
  statusTooltip : Option Str
deriving DecidableEq

/-- JS `Map.get`: the value at the first (unique) matching key. -/
def cacheLookup (c : List (Str × List BlameInfo)) (k : Str) : Option (List BlameInfo) :=
  match c with
  | [] => none
  | (k', v) :: rest => if k' = k then some v else cacheLookup rest k

/-- JS `Map.set`: overwrite the entry for the key, or append a new one. -/
def cacheSet (c : List (Str × List BlameInfo)) (k : Str) (v : List BlameInfo) :
    List (Str × List BlameInfo) :=
  match c with
  | [] => [(k, v)]
  | (k', v') :: rest => if k' = k then (k, v) :: rest else (k', v') :: cacheSet rest k v

/-- Whether the cache holds the one-shot error-marker slot, as tested by the source through the map. -/
def hasErrorShown (st : ProviderState) : Bool :=
  (cacheLookup st.cache ("error_shown".toList)).isSome

def notRepoText : Str := "$(git-commit) Not a Git Repository".toList

def notRepoTooltip : Str := "Current file is not in a Git repository".toList

/-- The regex test of the source for the outside-repository pattern, i.e. substring containment of the pattern. -/
def containsSub (s pat : Str) : Bool :=
  (List.range (s.length + 1)).any (fun i => pat.isPrefixOf (s.drop i))

/-- The `showError` method of the source, returning the updated provider state and the
user-visible effects it produces. -/
def showError (st : ProviderState) (message : Str) : ProviderState × List Effect :=
  if message = "Not a git repository".toList ∧ hasErrorShown st then (st, [])
  else if containsSub message ("is outside repository".toList) then (st, [])
  else
    let st1 : ProviderState := { st with cache := cacheSet st.cache ("error_shown".toList) [] }
    if message = "Git is not installed".toList then
      (st1, [Effect.showErrorMessage
        ("Git is not installed. Please install Git to use blame features.".toList)])
    else if message = "Not a git repository".toList then
      ({ st1 with statusText := notRepoText, statusTooltip := some notRepoTooltip },
       [Effect.statusBarUpdate notRepoText notRepoTooltip])
    else if message = "File does not exist".toList then (st1, [])
    else (st1, [Effect.showErrorMessage ("Git blame error: ".toList ++ message)])

/-- The `try` block of `getGitBlame`: the three availability checks in
order, then the blame query and parse; returns the effects performed and
either the parsed records or the message of the thrown error (the
`RangeError` thrown by the parser carries V8's "Invalid time value"). -/
def getGitBlameTry (env : Env) (p : Str) : List Effect × Except Str (List BlameInfo) :=
  if ¬ env.fileExists p then
    ([Effect.fsAccessCheck p], .error ("File does not exist".toList))
  else if ¬ env.gitVersionOk then
    ([Effect.fsAccessCheck p, Effect.execGitVersion], .error ("Git is not installed".toList))
  else if ¬ gitRepoCheck (env.revParse p) then
    ([Effect.fsAccessCheck p, Effect.execGitVersion, Effect.execRevParse p],
     .error ("Not a git repository".toList))
  else
    let effs := [Effect.fsAccessCheck p, Effect.execGitVersion, Effect.execRevParse p,
                 Effect.execBlame p]
    match env.blame p with
    | .error m => (effs, .error m)
    | .ok out =>
      match parseBlameOutput out with
      | .error _ => (effs, .error ("Invalid time value".toList))
      | .ok l => (effs, .ok l)

/-- The `getGitBlame` method: the `try` flow with its `catch` boundary, which routes the
error message to `showError` and returns an empty array. -/
def getGitBlame (env : Env) (st : ProviderState) (p : Str) :
    ProviderState × List Effect × List BlameInfo :=
  match getGitBlameTry env p with
  | (effs, .ok l) => (st, effs, l)
  | (effs, .error m) =>
    let r := showError st m
    (r.1, effs ++ r.2, [])

/-- A sequence of fetches in one process: fold `getGitBlame` over the paths,
concatenating the effect traces. -/
def runFetches (env : Env) (st : ProviderState) : List Str → ProviderState × List Effect
  | [] => (st, [])
  | p :: ps =>
    let r := getGitBlame env st p
    let rest := runFetches env r.1 ps
    (rest.1, r.2.1 ++ rest.2)

/-- Provider state as built by the constructor of `GitBlameProvider`. -/
def initialProviderState : ProviderState :=
  { enabled := true, cache := [],
    statusText := "$(git-commit) Git Blame".toList, statusTooltip := none }

/-- The distinct "not a repository" status-indicator change. -/
def isNotRepoIndicator : Effect → Bool
  | .statusBarUpdate t tip => decide (t = notRepoText ∧ tip = notRepoTooltip)
  | _ => false

/-- Lines covered by the selection ranges: for each range every line of the
inclusive span `[startLine, endLine]`, collected into the `Set<number>`. -/
def selectedLinesOf (sels : List Selection) : Finset Int :=
  sels.foldl
    (fun acc s => acc ∪ ((List.range' s.startLine (s.endLine + 1 - s.startLine)).map
      (fun n => (n : Int))).toFinset) ∅

/-- Model of `blame.filter(info => selectedLines.has(info.lineNumber - 1))`; the
subtraction is JavaScript's, i.e. over the integers. -/
def filterBlame (blame : List BlameInfo) (selectedLines : Finset Int) : List BlameInfo :=
  blame.filter (fun info => decide (((info.lineNumber : Int) - 1) ∈ selectedLines))

/-- String interpolation of a possibly-`undefined` field. -/
def optStr (o : Option Str) : Str := o.getD ("undefined".toList)

/-- The decoration built for one surviving record. -/
def decorationFor (info : BlameInfo) : Decoration :=
  { line := info.lineNumber - 1,
    contentText := "  ".toList ++ optStr info.author ++ " • ".toList ++ optStr info.date,
    hoverMessage :=
      "**Commit:** ".toList ++ optStr info.hash ++ "\n\n".toList ++
      "**Author:** ".toList ++ optStr info.author ++ "\n\n".toList ++
      "**Date:** ".toList ++ optStr info.date ++ "\n\n".toList ++
      "**Message:** ".toList ++ optStr info.message }

/-- The `.map` building decorations; `document.lineAt(info.lineNumber - 1)`
throws when the index is outside the document, aborting the traversal. -/
def buildDecos (doc : Document) : List BlameInfo → Except Unit (List Decoration)
  | [] => .ok []
  | info :: rest =>
    if 0 ≤ (info.lineNumber : Int) - 1 ∧ (info.lineNumber : Int) - 1 < (doc.lineCount : Int) then
      match buildDecos doc rest with
      | .error e => .error e
      | .ok ds => .ok (decorationFor info :: ds)
    else .error ()

/-- The `updateDecorations` method of the source, over an optional editor (`none` models
`!editor`).  Returns the updated state, the ordered effect trace, and whether
the invocation completed normally (`.error ()` models the uncaught `lineAt`
exception). -/
def updateDecorations (env : Env) (st : ProviderState) (editorOpt : Option Editor) :
    ProviderState × List Effect × Except Unit Unit :=
  match editorOpt with
  | none => (st, [], .ok ())
  | some editor =>
    if ¬ st.enabled then (st, [], .ok ())
    else
      let effs0 := [Effect.clearDecorations]
      let fp := editor.document.fsPath
      if editor.selections = [] then (st, effs0, .ok ())
      else
        let sel := selectedLinesOf editor.selections
        if sel = ∅ then (st, effs0, .ok ())
        else if editor.document.isUntitled ∨ ¬ editor.document.scheme = "file".toList then
          (st, effs0, .ok ())
        else
          let fetched :=
            match cacheLookup st.cache fp with
            | some b => (st, ([] : List Effect), b)
            | none =>
              let r := getGitBlame env st fp
              if r.2.2 ≠ [] then ({ r.1 with cache := cacheSet r.1.cache fp r.2.2 }, r.2.1, r.2.2)
              else (r.1, r.2.1, r.2.2)
          let st1 := fetched.1
          let blame := fetched.2.2
          match buildDecos editor.document (filterBlame blame sel) with
          | .error _ => (st1, effs0 ++ fetched.2.1, .error ())
          | .ok decos =>
            let effs2 := effs0 ++ fetched.2.1 ++ [Effect.setDecorations decos]
            if blame ≠ [] then
              ({ st1 with statusText := "$(git-commit) Git Blame".toList,
                          statusTooltip := some ("Click to toggle Git blame".toList) },
               effs2 ++ [Effect.statusBarUpdate ("$(git-commit) Git Blame".toList)
                 ("Click to toggle Git blame".toList)], .ok ())
            else (st1, effs2, .ok ())

/-- Raw blame text with two hash-terminated blocks, no timestamps. -/
def sampleTwoBlocks : Str :=
  "author Alice\nsummary Fix\n0123456789abcdef0123456789abcdef01234567\nauthor Bob\n0123456789abcdef0123456789abcdef01234567 9\n".toList

/-- Raw blame text with one block that has no `author-time` line. -/
def sampleNoTime : Str :=
  "author Alice\nsummary Fix\n0123456789abcdef0123456789abcdef01234567".toList

/-- An environment whose target file is missing on disk. -/
def envMissing : Env :=
  { fileExists := fun _ => false, gitVersionOk := true,
    revParse := fun _ => some (".git".toList), blame := fun _ => .ok [] }

/-- A fully healthy environment with a one-line blame answer. -/
def envHealthy : Env :=
  { fileExists := fun _ => true, gitVersionOk := true,
    revParse := fun _ => some (".git".toList),
    blame := fun _ => .ok sampleNoTime }

/-- An environment in which every path is outside any repository. -/
def envNoRepo : Env :=
  { fileExists := fun _ => true, gitVersionOk := true,
    revParse := fun _ => none, blame := fun _ => .error ("fatal".toList) }

def docFile : Document :=
  { fsPath := "/tmp/a.txt".toList, scheme := "file".toList, isUntitled := false, lineCount := 10 }

def docUntitled : Document :=
  { fsPath := "Untitled-1".toList, scheme := "untitled".toList, isUntitled := true, lineCount := 10 }

def edFile : Editor := { document := docFile, selections := [{ startLine := 0, endLine := 2 }] }

def edUntitled : Editor :=
  { document := docUntitled, selections := [{ startLine := 0, endLine := 2 }] }

/-- Provider state with the toggle off. -/
def stOff : ProviderState := { initialProviderState with enabled := false }

/-- A bare record carrying only a line number. -/
def wRec (i : Nat) : BlameInfo :=
  { hash := none, author := none, date := none, message := none, lineNumber := i }

/-- Provider state whose one-shot error marker is already set. -/
def stMarked : ProviderState :=
  { initialProviderState with cache := [(("error_shown".toList), [])] }

/-- C9: the end-to-end example text parses to one record with author
`Alice`, date `2023-11-14`, message `Fix bug`, the 40 `a`s as hash (text
after the hash discarded) and `lineNumber` 1. -/
theorem parseBlameOutput_example :
    parseBlameOutput ("author Alice\nauthor-time 1700000000\nsummary Fix bug\naaaaaaaaaaaaaaaaaaaaaaaaaaaaaaaaaaaaaaaa extra\n".toList) =
    .ok [{ hash := some ("aaaaaaaaaaaaaaaaaaaaaaaaaaaaaaaaaaaaaaaa".toList),
           author := some ("Alice".toList),
           date := some ("2023-11-14".toList),
           message := some ("Fix bug".toList),
           lineNumber := 1 }] := by rfl

theorem isHash40_cons_hex {c : Char} {t : Str} (h : isHash40 (c :: t) = true) :
    isHexDigit c = true := by
  have h' : (decide (40 ≤ (c :: t).length) && ((c :: t.take 39).all isHexDigit)) = true := h
  have h2 := (Bool.and_eq_true_iff.mp h').2
  rw [List.all_cons] at h2
  exact (Bool.and_eq_true_iff.mp h2).1

theorem isHash40_cons2_hex {c0 c1 : Char} {t : Str} (h : isHash40 (c0 :: c1 :: t) = true) :
    isHexDigit c1 = true := by
  have h' : (decide (40 ≤ (c0 :: c1 :: t).length) &&
      ((c0 :: c1 :: t.take 38).all isHexDigit)) = true := h
  have h2 := (Bool.and_eq_true_iff.mp h').2
  rw [List.all_cons, List.all_cons] at h2
  exact (Bool.and_eq_true_iff.mp (Bool.and_eq_true_iff.mp h2).2).1

theorem isPrefixOf_cons2 {c0 c1 : Char} {p l : Str}
    (h : (c0 :: c1 :: p).isPrefixOf l = true) : ∃ t, l = c0 :: c1 :: t := by
  match l with
  | [] => simp [List.isPrefixOf] at h
  | [x] => simp [List.isPrefixOf] at h
  | x :: y :: t =>
    simp only [List.isPrefixOf, Bool.and_eq_true, beq_iff_eq] at h
    exact ⟨t, by rw [h.1, h.2.1]⟩

theorem isPrefixOf_cons1 {c0 : Char} {p l : Str}
    (h : (c0 :: p).isPrefixOf l = true) : ∃ t, l = c0 :: t := by
  match l with
  | [] => simp [List.isPrefixOf] at h
  | x :: t =>
    simp only [List.isPrefixOf, Bool.and_eq_true, beq_iff_eq] at h
    exact ⟨t, by rw [h.1]⟩

/-- A line starting with `a` then `u` (so any `author `- or `author-time `-
prefixed line) never matches the 40-hex regex. -/
theorem not_hash_of_au {p l : Str} (h : ('a' :: 'u' :: p).isPrefixOf l = true) :
    isHash40 l = false := by
  obtain ⟨t, rfl⟩ := isPrefixOf_cons2 h
  cases hh : isHash40 ('a' :: 'u' :: t) with
  | false => rfl
  | true => exact absurd (isHash40_cons2_hex hh) (by decide)

/-- A line starting with `s` (so any `summary `-prefixed line) never matches
the 40-hex regex. -/
theorem not_hash_of_s {p l : Str} (h : ('s' :: p).isPrefixOf l = true) :
    isHash40 l = false := by
  obtain ⟨t, rfl⟩ := isPrefixOf_cons1 h
  cases hh : isHash40 ('s' :: t) with
  | false => rfl
  | true => exact absurd (isHash40_cons_hex hh) (by decide)


theorem bool_ne_true {b : Bool} (h : b = false) : ¬ (b = true) := by simp [h]

/-- The record a hash line appends: the first 40 characters as `hash`, the
accumulated fields, and the incremented counter as `lineNumber`. -/
def finalizedRecord (st : ParseState) (a : Str) : BlameInfo :=
  { hash := some (a.take 40),
    author := st.currentBlame.author,
    date := st.currentBlame.date,
    message := st.currentBlame.message,
    lineNumber := st.lineNumber + 1 }

theorem parseStep_author (st : ParseState) (r : Str) :
    parseStep st ("author ".toList ++ r) =
      .ok { st with currentBlame := { st.currentBlame with author := some r } } := by
  unfold parseStep
  rw [if_pos (by simp : (("author ".toList).isPrefixOf ("author ".toList ++ r)) = true)]
  rfl

theorem parseStep_summary (st : ParseState) (r : Str) :
    parseStep st ("summary ".toList ++ r) =
      .ok { st with currentBlame := { st.currentBlame with message := some r } } := by
  unfold parseStep
  rw [if_neg (bool_ne_true
        (show (("author ".toList).isPrefixOf ("summary ".toList ++ r)) = false from rfl)),
      if_neg (bool_ne_true
        (show (("author-time ".toList).isPrefixOf ("summary ".toList ++ r)) = false from rfl)),
      if_pos (by simp : (("summary ".toList).isPrefixOf ("summary ".toList ++ r)) = true)]
  rfl

theorem parseStep_hash (st : ParseState) {a : Str} (h : isHash40 a = true) :
    parseStep st a = .ok { blame := st.blame ++ [finalizedRecord st a],
                           currentBlame := {},
                           lineNumber := st.lineNumber + 1 } := by
  have h1 : ¬ ((("author ".toList).isPrefixOf a) = true) := by
    intro hp
    have hp' : (('a' :: 'u' :: ("thor ".toList)).isPrefixOf a) = true := hp
    rw [not_hash_of_au hp'] at h
    exact absurd h (by simp)
  have h2 : ¬ ((("author-time ".toList).isPrefixOf a) = true) := by
    intro hp
    have hp' : (('a' :: 'u' :: ("thor-time ".toList)).isPrefixOf a) = true := hp
    rw [not_hash_of_au hp'] at h
    exact absurd h (by simp)
  have h3 : ¬ ((("summary ".toList).isPrefixOf a) = true) := by
    intro hp
    have hp' : (('s' :: ("ummary ".toList)).isPrefixOf a) = true := hp
    rw [not_hash_of_s hp'] at h
    exact absurd h (by simp)
  unfold parseStep
  rw [if_neg h1, if_neg h2, if_neg h3, if_pos h]
  rfl

/-- The `forEach` body either finalizes one record (precisely on the lines
matching the 40-hex regex), keeps the `blame` array and counter unchanged,
or throws — and throwing never happens on a regex-matching line. -/
theorem parseStep_shape (st : ParseState) (a : Str) :
    (isHash40 a = true ∧
      parseStep st a = .ok { blame := st.blame ++ [finalizedRecord st a],
                             currentBlame := {},
                             lineNumber := st.lineNumber + 1 }) ∨
    (isHash40 a = false ∧
      ((∃ st', parseStep st a = .ok st' ∧ st'.blame = st.blame ∧
          st'.lineNumber = st.lineNumber) ∨
        parseStep st a = .error ())) := by
  by_cases h1 : (("author ".toList).isPrefixOf a) = true
  · refine .inr ⟨not_hash_of_au (p := "thor ".toList) h1,
      .inl ⟨{ st with currentBlame := { st.currentBlame with author := some (a.drop 7) } },
        ?_, rfl, rfl⟩⟩
    unfold parseStep
    rw [if_pos h1]
  · by_cases h2 : (("author-time ".toList).isPrefixOf a) = true
    · refine .inr ⟨not_hash_of_au (p := "thor-time ".toList) h2, ?_⟩
      cases hd : authorTimeToDate (a.drop 12) with
      | some d =>
        refine .inl ⟨{ st with currentBlame := { st.currentBlame with date := some d } },
          ?_, rfl, rfl⟩
        unfold parseStep
        rw [if_neg h1, if_pos h2, hd]
      | none =>
        refine .inr ?_
        unfold parseStep
        rw [if_neg h1, if_pos h2, hd]
    · by_cases h3 : (("summary ".toList).isPrefixOf a) = true
      · refine .inr ⟨not_hash_of_s (p := "ummary ".toList) h3,
          .inl ⟨{ st with currentBlame := { st.currentBlame with message := some (a.drop 8) } },
            ?_, rfl, rfl⟩⟩
        unfold parseStep
        rw [if_neg h1, if_neg h2, if_pos h3]
      · by_cases h4 : isHash40 a = true
        · refine .inl ⟨h4, parseStep_hash st h4⟩
        · refine .inr ⟨Bool.not_eq_true _ ▸ h4, .inl ⟨st, ?_, rfl, rfl⟩⟩
          unfold parseStep
          rw [if_neg h1, if_neg h2, if_neg h3, if_neg h4]

/-- Loop invariant of `parseBlameOutput`: whenever the traversal completes,
the records carry the line numbers `1..N` in order, where `N` counts the
lines matching the 40-hex regex. -/
theorem parseLines_spec (ls : List Str) : ∀ (st : ParseState) (res : List BlameInfo),
    st.blame.map (fun b => b.lineNumber) = List.range' 1 st.blame.length →
    st.lineNumber = st.blame.length →
    parseLines ls st = .ok res →
    res.map (fun b => b.lineNumber) = List.range' 1 res.length ∧
    res.length = st.blame.length + ls.countP isHash40 := by
  induction ls with
  | nil =>
    intro st res h1 h2 h3
    have hres : st.blame = res := by
      simpa [parseLines] using h3
    subst hres
    simpa using h1
  | cons a ls ih =>
    intro st res h1 h2 h3
    rcases parseStep_shape st a with ⟨hha, heq⟩ | ⟨hha, ⟨st', heq, hb, hn⟩ | heq⟩
    · rw [parseLines, heq] at h3
      have hinv1 : (st.blame ++ [finalizedRecord st a]).map (fun b => b.lineNumber) =
          List.range' 1 (st.blame ++ [finalizedRecord st a]).length := by
        rw [List.map_append, h1]
        simp only [finalizedRecord, List.map_cons, List.map_nil, List.length_append,
                   List.length_cons, List.length_nil]
        rw [h2, List.range'_concat]
        simp [Nat.add_comm]
      have := ih _ res hinv1 (by simp [finalizedRecord, h2]) h3
      refine ⟨this.1, ?_⟩
      rw [this.2]
      simp [List.countP_cons, hha]
      omega
    · rw [parseLines, heq] at h3
      have := ih st' res (hb ▸ h1) (hb ▸ hn ▸ h2) h3
      refine ⟨this.1, ?_⟩
      rw [this.2, hb]
      simp [List.countP_cons, hha]
    · rw [parseLines, heq] at h3
      exact absurd h3 (by simp)

/-- C1: whenever `parseBlameOutput` completes on an input, it returns exactly
one record per line beginning with a 40-hex-character hash (the block
terminators), and their `lineNumber`s are `1..N` in order — assigned by
counting finalized blocks, independent of any line-number field present in
the raw output. -/
theorem parseBlameOutput_lineNumbers (s : Str) (res : List BlameInfo)
    (h : parseBlameOutput s = .ok res) :
    res.map (fun b => b.lineNumber) = List.range' 1 res.length ∧
    res.length = (splitLines s).countP isHash40 := by
  have h' : parseLines (splitLines s) { blame := [], currentBlame := {}, lineNumber := 0 } =
      .ok res := h
  simpa using parseLines_spec (splitLines s) _ res (by simp) (by simp) h'

/-- Witness for C1 on a concrete two-block input. -/
theorem parseBlameOutput_lineNumbers_witness :
    ([{ hash := some ("0123456789abcdef0123456789abcdef01234567".toList),
        author := some ("Alice".toList), date := none,
        message := some ("Fix".toList), lineNumber := 1 },
      { hash := some ("0123456789abcdef0123456789abcdef01234567".toList),
        author := some ("Bob".toList), date := none,
        message := none, lineNumber := 2 }] : List BlameInfo).map (fun b => b.lineNumber) =
      List.range' 1 ([{ hash := some ("0123456789abcdef0123456789abcdef01234567".toList),
                        author := some ("Alice".toList), date := none,
                        message := some ("Fix".toList), lineNumber := 1 },
                      { hash := some ("0123456789abcdef0123456789abcdef01234567".toList),
                        author := some ("Bob".toList), date := none,
                        message := none, lineNumber := 2 }] : List BlameInfo).length ∧
    ([{ hash := some ("0123456789abcdef0123456789abcdef01234567".toList),
        author := some ("Alice".toList), date := none,
        message := some ("Fix".toList), lineNumber := 1 },
      { hash := some ("0123456789abcdef0123456789abcdef01234567".toList),
        author := some ("Bob".toList), date := none,
        message := none, lineNumber := 2 }] : List BlameInfo).length =
      (splitLines sampleTwoBlocks).countP isHash40 :=
  parseBlameOutput_lineNumbers sampleTwoBlocks _ (by rfl)

/-- C2 counterexample: on the input `"author-time x"` the date conversion of
the `author-time ` branch hits `parseInt` returning `NaN`, so
`new Date(NaN).toISOString()` throws a `RangeError` and `parseBlameOutput`
propagates it instead of terminating normally. -/
theorem parseBlameOutput_raises_on_bad_author_time :
    parseBlameOutput ("author-time x".toList) = .error () := by rfl

/-- Inner lemma for C2: the traversal completes from any state when every
`author-time ` line carries a convertible timestamp. -/
theorem parseLines_ok_of_author_time_ok (ls : List Str) : ∀ st : ParseState,
    (∀ l ∈ ls, (("author-time ".toList).isPrefixOf l) = true →
       (authorTimeToDate (l.drop 12)).isSome = true) →
    ∃ res, parseLines ls st = .ok res := by
  induction ls with
  | nil => exact fun st _ => ⟨st.blame, rfl⟩
  | cons a ls ih =>
    intro st h
    have hstep : ∃ st', parseStep st a = .ok st' := by
      unfold parseStep
      by_cases h1 : (("author ".toList).isPrefixOf a) = true
      · rw [if_pos h1]; exact ⟨_, rfl⟩
      · rw [if_neg h1]
        by_cases h2 : (("author-time ".toList).isPrefixOf a) = true
        · rw [if_pos h2]
          have hsome := h a (List.mem_cons_self a ls) h2
          cases hd : authorTimeToDate (a.drop 12) with
          | none => rw [hd] at hsome; exact absurd hsome (by simp)
          | some d => exact ⟨_, rfl⟩
        · rw [if_neg h2]
          by_cases h3 : (("summary ".toList).isPrefixOf a) = true
          · rw [if_pos h3]; exact ⟨_, rfl⟩
          · rw [if_neg h3]
            by_cases h4 : isHash40 a = true
            · rw [if_pos h4]; exact ⟨_, rfl⟩
            · rw [if_neg h4]; exact ⟨st, rfl⟩
    obtain ⟨st', hst'⟩ := hstep
    obtain ⟨res, hres⟩ := ih st' (fun l hl hp => h l (List.mem_cons_of_mem a hl) hp)
    exact ⟨res, by rw [parseLines, hst']; exact hres⟩

/-- C2 (amended): `parseBlameOutput` terminates normally on every input
string whose `author-time `-prefixed lines each carry a timestamp that
`parseInt` accepts and that lies within the representable `Date` range;
malformed or incomplete blocks then simply yield partial records.  (An
`author-time ` line violating that condition makes the date conversion throw
a `RangeError`, which propagates out of the parser.) -/
theorem parseBlameOutput_ok_of_author_time_ok (s : Str)
    (h : ∀ l ∈ splitLines s, (("author-time ".toList).isPrefixOf l) = true →
       (authorTimeToDate (l.drop 12)).isSome = true) :
    parseOk s = true := by
  obtain ⟨res, hres⟩ := parseLines_ok_of_author_time_ok (splitLines s)
    { blame := [], currentBlame := {}, lineNumber := 0 } h
  unfold parseOk parseBlameOutput
  rw [hres]

/-- Witness for the amended C2 on a concrete input with one well-formed
`author-time` line and one junk line. -/
theorem parseBlameOutput_ok_of_author_time_ok_witness :
    parseOk ("author-time 1700000000\njunk line".toList) = true :=
  parseBlameOutput_ok_of_author_time_ok _ (by decide)

/-- Stepping the loop once with a non-throwing line. -/
theorem parseLines_cons_ok {st st' : ParseState} {l : Str} (ls : List Str)
    (h : parseStep st l = .ok st') : parseLines (l :: ls) st = parseLines ls st' := by
  rw [parseLines, h]

/-- C3: an input consisting of an `author `-prefixed line, a `summary `-
prefixed line and a terminating 40-hex-character hash line — but no
`author-time ` line — parses without throwing to a single record whose
`date` is undefined while `author`, `message`, `hash` and `lineNumber` are
set as usual. -/
theorem parseBlameOutput_missing_author_time (s a' m' hl : Str)
    (hsplit : splitLines s = [("author ".toList ++ a'), ("summary ".toList ++ m'), hl])
    (hh : isHash40 hl = true) :
    parseBlameOutput s = .ok [{ hash := some (hl.take 40), author := some a',
                                date := none, message := some m', lineNumber := 1 }] := by
  unfold parseBlameOutput
  rw [hsplit, parseLines_cons_ok _ (parseStep_author _ _),
      parseLines_cons_ok _ (parseStep_summary _ _),
      parseLines_cons_ok _ (parseStep_hash _ hh)]
  rfl

/-- Witness for C3 on a concrete author/summary/hash input. -/
theorem parseBlameOutput_missing_author_time_witness :
    parseBlameOutput sampleNoTime =
      .ok [{ hash := some (("0123456789abcdef0123456789abcdef01234567".toList).take 40),
             author := some ("Alice".toList), date := none,
             message := some ("Fix".toList), lineNumber := 1 }] :=
  parseBlameOutput_missing_author_time sampleNoTime ("Alice".toList) ("Fix".toList)
    ("0123456789abcdef0123456789abcdef01234567".toList) (by decide) (by decide)

/-- C4: the Reconciler's filter keeps exactly the records whose
`lineNumber - 1` (integer arithmetic, as in JavaScript) belongs to the
selected-lines set; in particular, on ten records numbered `1..10` and the
0-based selection `{2,3,5}` it returns exactly the records numbered 3, 4
and 6, in order. -/
theorem filterBlame_spec :
    (∀ (blame : List BlameInfo) (sel : Finset Int) (r : BlameInfo),
      r ∈ filterBlame blame sel ↔ r ∈ blame ∧ ((r.lineNumber : Int) - 1) ∈ sel) ∧
    (∀ f : Nat → BlameInfo, (∀ i, (f i).lineNumber = i) →
      filterBlame ((List.range' 1 10).map f) ({2, 3, 5} : Finset Int) = [f 3, f 4, f 6]) := by
  constructor
  · intro blame sel r
    simp [filterBlame, List.mem_filter]
  · intro f hf
    have hr : List.range' 1 10 = [1, 2, 3, 4, 5, 6, 7, 8, 9, 10] := by decide
    rw [hr]
    simp only [List.map_cons, List.map_nil, filterBlame, List.filter_cons, List.filter_nil, hf]
    norm_num [Finset.mem_insert]

/-- Witness for C4 with the concrete record family `wRec`. -/
theorem filterBlame_spec_witness :
    (wRec 3 ∈ filterBlame [wRec 3] ({2} : Finset Int) ↔
      wRec 3 ∈ [wRec 3] ∧ (((wRec 3).lineNumber : Int) - 1) ∈ ({2} : Finset Int)) ∧
    filterBlame ((List.range' 1 10).map wRec) ({2, 3, 5} : Finset Int) =
      [wRec 3, wRec 4, wRec 6] :=
  ⟨filterBlame_spec.1 [wRec 3] ({2} : Finset Int) (wRec 3),
   filterBlame_spec.2 wRec (fun _ => rfl)⟩

/-- C5 counterexample: invoked with the toggle off (and an active editor
with a live selection), `updateDecorations` returns immediately — its effect
trace contains no decoration-clearing call, contradicting "clears any
existing decorations and then returns". -/
theorem updateDecorations_disabled_no_clear :
    ¬ (Effect.clearDecorations ∈ (updateDecorations envHealthy stOff (some edFile)).2.1) := by
  decide

/-- C5 (amended): whenever `updateDecorations` is invoked with the toggle
off or with no active editor, it returns immediately without performing any
work at all — no decorations are cleared or applied, no state changes, and
no check or query runs. -/
theorem updateDecorations_disabled_noop (env : Env) (st : ProviderState)
    (ed : Option Editor) (h : st.enabled = false ∨ ed = none) :
    updateDecorations env st ed = (st, [], .ok ()) := by
  cases ed with
  | none => rfl
  | some e =>
    cases h with
    | inl henb =>
      simp only [updateDecorations]
      rw [if_pos (by simp [henb])]
    | inr hnone => exact absurd hnone (by simp)

/-- Witness for the amended C5 at a concrete disabled invocation. -/
theorem updateDecorations_disabled_noop_witness :
    updateDecorations envHealthy stOff (some edFile) = (stOff, [], .ok ()) :=
  updateDecorations_disabled_noop envHealthy stOff (some edFile) (.inl rfl)

/-- C8: on a document that is untitled or whose URI scheme is not `file`,
`updateDecorations` performs at most the decoration-clearing call — in
particular it never reaches the availability checks or any subprocess
invocation. -/
theorem updateDecorations_nonfile_no_subprocess (env : Env) (st : ProviderState)
    (ed : Editor)
    (h : ed.document.isUntitled = true ∨ ¬ ed.document.scheme = "file".toList) :
    ((updateDecorations env st (some ed)).2.1).all
      (fun e => decide (e = Effect.clearDecorations)) = true := by
  simp only [updateDecorations]
  by_cases henb : st.enabled = true
  · rw [if_neg (by simp [henb])]
    by_cases hsel : ed.selections = []
    · rw [if_pos hsel]; rfl
    · rw [if_neg hsel]
      by_cases hempty : selectedLinesOf ed.selections = ∅
      · rw [if_pos hempty]; rfl
      · rw [if_neg hempty, if_pos h]; rfl
  · rw [if_pos henb]; rfl

/-- Witness for C8 at a concrete untitled-document invocation. -/
theorem updateDecorations_nonfile_no_subprocess_witness :
    ((updateDecorations envHealthy initialProviderState (some edUntitled)).2.1).all
      (fun e => decide (e = Effect.clearDecorations)) = true :=
  updateDecorations_nonfile_no_subprocess envHealthy initialProviderState edUntitled
    (.inl rfl)

/-- C6: the three availability checks run in the fixed order (path exists,
tool installed, inside a repository); the first failing check aborts the
fetch with its classified error before any later check or blame query runs;
and every error of the fetch flow is caught at the boundary of
`getGitBlame`, routed to `showError`, and converted to an empty record list
— the caller never receives an exception. -/
theorem getGitBlame_check_order (env : Env) (st : ProviderState) (p : Str) :
    ((env.fileExists p = false →
        getGitBlameTry env p =
          ([Effect.fsAccessCheck p], .error ("File does not exist".toList))) ∧
     (env.fileExists p = true → env.gitVersionOk = false →
        getGitBlameTry env p =
          ([Effect.fsAccessCheck p, Effect.execGitVersion],
           .error ("Git is not installed".toList))) ∧
     (env.fileExists p = true → env.gitVersionOk = true →
        gitRepoCheck (env.revParse p) = false →
        getGitBlameTry env p =
          ([Effect.fsAccessCheck p, Effect.execGitVersion, Effect.execRevParse p],
           .error ("Not a git repository".toList)))) ∧
    (∀ (effs : List Effect) (msg : Str), getGitBlameTry env p = (effs, .error msg) →
      getGitBlame env st p = ((showError st msg).1, effs ++ (showError st msg).2, [])) := by
  refine ⟨⟨?_, ?_, ?_⟩, ?_⟩
  · intro h1
    unfold getGitBlameTry
    rw [if_pos (by simp [h1])]
  · intro h1 h2
    unfold getGitBlameTry
    rw [if_neg (by simp [h1]), if_pos (by simp [h2])]
  · intro h1 h2 h3
    unfold getGitBlameTry
    rw [if_neg (by simp [h1]), if_neg (by simp [h2]), if_pos (by simp [h3])]
  · intro effs msg heq
    unfold getGitBlame
    rw [heq]

/-- Witness for C6: a missing file aborts after the existence check alone,
and a non-repository fetch is converted to an empty result via `showError`. -/
theorem getGitBlame_check_order_witness :
    getGitBlameTry envMissing ("/tmp/a.txt".toList) =
      ([Effect.fsAccessCheck ("/tmp/a.txt".toList)],
       .error ("File does not exist".toList)) ∧
    getGitBlame envNoRepo initialProviderState ("/tmp/a.txt".toList) =
      ((showError initialProviderState ("Not a git repository".toList)).1,
       [Effect.fsAccessCheck ("/tmp/a.txt".toList), Effect.execGitVersion,
        Effect.execRevParse ("/tmp/a.txt".toList)] ++
         (showError initialProviderState ("Not a git repository".toList)).2, []) :=
  ⟨(getGitBlame_check_order envMissing initialProviderState ("/tmp/a.txt".toList)).1.1 rfl,
   (getGitBlame_check_order envNoRepo initialProviderState ("/tmp/a.txt".toList)).2 _ _
     ((getGitBlame_check_order envNoRepo initialProviderState ("/tmp/a.txt".toList)).1.2.2
       rfl rfl rfl)⟩

theorem cacheLookup_cacheSet_self (c : List (Str × List BlameInfo)) (k : Str)
    (v : List BlameInfo) : cacheLookup (cacheSet c k v) k = some v := by
  induction c with
  | nil => simp [cacheSet, cacheLookup]
  | cons e rest ih =>
    obtain ⟨k', v'⟩ := e
    by_cases h : k' = k
    · simp [cacheSet, cacheLookup, h]
    · simp [cacheSet, cacheLookup, h, ih]

/-- Every `showError` call that reaches the switch sets the one-shot
`error_shown` marker. -/
theorem showError_sets_marker (st : ProviderState) (msg : Str)
    (hpat : containsSub msg ("is outside repository".toList) = false) :
    hasErrorShown (showError st msg).1 = true := by
  unfold showError
  by_cases h1 : msg = "Not a git repository".toList ∧ hasErrorShown st = true
  · rw [if_pos h1]
    exact h1.2
  · rw [if_neg h1, if_neg (by rw [hpat]; simp)]
    split_ifs <;>
      simp [hasErrorShown, cacheLookup_cacheSet_self]

/-- Counting the "not a repository" indicator across one `showError` call:
it appears at most once, only together with the marker being set, and never
when the marker was already set on entry. -/
theorem showError_indicator_count (st : ProviderState) (msg : Str) :
    ((showError st msg).2.countP isNotRepoIndicator = 0 ∨
      ((showError st msg).2.countP isNotRepoIndicator = 1 ∧
        hasErrorShown (showError st msg).1 = true)) ∧
    (hasErrorShown st = true → (showError st msg).2.countP isNotRepoIndicator = 0 ∧
      hasErrorShown (showError st msg).1 = true) := by
  unfold showError
  by_cases h1 : msg = "Not a git repository".toList ∧ hasErrorShown st = true
  · rw [if_pos h1]
    exact ⟨.inl (by simp), fun hm => ⟨by simp, hm⟩⟩
  · rw [if_neg h1]
    by_cases h2 : containsSub msg ("is outside repository".toList) = true
    · rw [if_pos h2]
      exact ⟨.inl (by simp), fun hm => ⟨by simp, hm⟩⟩
    · rw [if_neg h2]
      by_cases h3 : msg = "Git is not installed".toList
      · rw [if_pos h3]
        refine ⟨.inl (by simp [isNotRepoIndicator]), fun hm => ?_⟩
        exact ⟨by simp [isNotRepoIndicator], by simp [hasErrorShown, cacheLookup_cacheSet_self]⟩
      · rw [if_neg h3]
        by_cases h4 : msg = "Not a git repository".toList
        · rw [if_pos h4]
          refine ⟨.inr ⟨by simp [isNotRepoIndicator], ?_⟩, fun hm => ?_⟩
          · simp [hasErrorShown, cacheLookup_cacheSet_self]
          · exact absurd ⟨h4, hm⟩ h1
        · rw [if_neg h4]
          by_cases h5 : msg = "File does not exist".toList
          · rw [if_pos h5]
            exact ⟨.inl (by simp), fun hm =>
              ⟨by simp, by simp [hasErrorShown, cacheLookup_cacheSet_self]⟩⟩
          · rw [if_neg h5]
            exact ⟨.inl (by simp [isNotRepoIndicator]), fun hm =>
              ⟨by simp [isNotRepoIndicator],
               by simp [hasErrorShown, cacheLookup_cacheSet_self]⟩⟩

/-- The `try` flow emits no status-bar effect at all. -/
theorem getGitBlameTry_indicator_count (env : Env) (p : Str) :
    (getGitBlameTry env p).1.countP isNotRepoIndicator = 0 := by
  unfold getGitBlameTry
  split_ifs <;> try rfl
  split
  · rfl
  · split <;> rfl

/-- Indicator counting lifted to one whole `getGitBlame` fetch. -/
theorem getGitBlame_indicator_count (env : Env) (st : ProviderState) (p : Str) :
    (((getGitBlame env st p).2.1.countP isNotRepoIndicator = 0) ∨
      ((getGitBlame env st p).2.1.countP isNotRepoIndicator = 1 ∧
        hasErrorShown (getGitBlame env st p).1 = true)) ∧
    (hasErrorShown st = true →
      (getGitBlame env st p).2.1.countP isNotRepoIndicator = 0 ∧
      hasErrorShown (getGitBlame env st p).1 = true) := by
  have htry := getGitBlameTry_indicator_count env p
  unfold getGitBlame
  rcases hres : getGitBlameTry env p with ⟨effs, r⟩
  rw [hres] at htry
  cases r with
  | ok l =>
    exact ⟨.inl htry, fun hm => ⟨htry, hm⟩⟩
  | error m =>
    have hse := showError_indicator_count st m
    simp only [List.countP_append]
    rw [htry]
    rcases hse.1 with h0 | ⟨h1c, h1m⟩
    · refine ⟨.inl (by omega), fun hm => ?_⟩
      exact ⟨by omega, (hse.2 hm).2⟩
    · refine ⟨.inr ⟨by omega, h1m⟩, fun hm => ?_⟩
      have := (hse.2 hm).1
      exact ⟨by omega, (hse.2 hm).2⟩

/-- Once the marker is set, no later fetch in the process ever shows the
"not a repository" indicator again. -/
theorem runFetches_no_indicator_of_marker (paths : List Str) : ∀ (env : Env)
    (st : ProviderState), hasErrorShown st = true →
    (runFetches env st paths).2.countP isNotRepoIndicator = 0 := by
  induction paths with
  | nil => intro env st _; rfl
  | cons p ps ih =>
    intro env st h
    have hg := (getGitBlame_indicator_count env st p).2 h
    simp only [runFetches, List.countP_append]
    rw [hg.1, ih env _ hg.2]

/-- Across any fetch sequence the indicator appears at most once. -/
theorem runFetches_indicator_le_one (paths : List Str) : ∀ (env : Env)
    (st : ProviderState),
    (runFetches env st paths).2.countP isNotRepoIndicator ≤ 1 := by
  induction paths with
  | nil => intro env st; simp [runFetches]
  | cons p ps ih =>
    intro env st
    simp only [runFetches, List.countP_append]
    rcases (getGitBlame_indicator_count env st p).1 with h0 | ⟨h1c, h1m⟩
    · rw [h0]
      simpa using ih env _
    · rw [h1c, runFetches_no_indicator_of_marker ps env _ h1m]

/-- C7: starting from the freshly constructed provider, any sequence of
fetches in one process shows the distinct "not a repository" status-
indicator change at most once, deduplicated through the one-shot
`error_shown` marker slot of the cache. -/
theorem notARepository_at_most_once (env : Env) (paths : List Str) :
    (runFetches env initialProviderState paths).2.countP isNotRepoIndicator ≤ 1 :=
  runFetches_indicator_le_one paths env initialProviderState

/-- C10: every `showError` whose message does not match the "outside
repository" pattern sets the shared one-shot `error_shown` marker (also for
`FileMissing`, `ToolNotInstalled` and `QueryFailed` errors); and once the
marker is set, the "not a repository" indicator never appears in any later
fetch of the process. -/
theorem showError_marker_and_suppression :
    (∀ (st : ProviderState) (msg : Str),
      containsSub msg ("is outside repository".toList) = false →
      hasErrorShown (showError st msg).1 = true) ∧
    (∀ (env : Env) (st : ProviderState) (paths : List Str), hasErrorShown st = true →
      (runFetches env st paths).2.countP isNotRepoIndicator = 0) :=
  ⟨showError_sets_marker,
   fun env st paths h => runFetches_no_indicator_of_marker paths env st h⟩

/-- Witness for C10: a `FileMissing` error sets the marker, and with the
marker set a non-repository fetch shows no indicator. -/
theorem showError_marker_and_suppression_witness :
    hasErrorShown (showError initialProviderState ("File does not exist".toList)).1 = true ∧
    (runFetches envNoRepo stMarked [("/tmp/a.txt".toList)]).2.countP isNotRepoIndicator = 0 :=
  ⟨showError_marker_and_suppression.1 initialProviderState ("File does not exist".toList)
     (by decide),
   showError_marker_and_suppression.2 envNoRepo stMarked [("/tmp/a.txt".toList)] (by decide)⟩
